/-
Verification development for the Remo WhatsApp reminder bot
(files: src/unnamed/part_000 = index entry point, src/unnamed/part_001 = bot.js,
src/src/utils/admin.js).

The JavaScript is embedded shallowly:
  * strings are `List Char` internally (converted from/to `String` at the edges);
  * the regex patterns of `parseNaturalTime` are embedded as explicit scanners
    that reproduce the engine's leftmost-match, alternation-order and
    greediness behaviour for these concrete patterns;
  * Luxon `DateTime` values in the fixed zone Asia/Dhaka (UTC+6, no DST) are
    embedded as `Option Int` (seconds since epoch; `none` is an Invalid
    DateTime, which Luxon produces when `set` gets an out-of-range unit);
  * the module-level mutable state of bot.js (retry counter) and the JSON file
    behind admin.js are passed explicitly; a possibly failing file write is an
    explicit `writeOk : Bool` argument.
-/
import Mathlib

/-! ## Character and string helpers (ASCII, matching JS semantics on the
commands and phrases this bot handles) -/

/-- JS whitespace (`\s`, `trim`) restricted to the ASCII characters. -/
def isWsChar (c : Char) : Bool :=
  c == ' ' || c == '\t' || c == '\n' || c == '\r' || c == '\x0b' || c == '\x0c'

/-- Word character for the regex `\b` boundary: `[A-Za-z0-9_]`. -/
def isWordChar (c : Char) : Bool :=
  c.isAlphanum || c == '_'

/-- Numeric value of a decimal digit character. -/
def digitVal (c : Char) : Nat := c.toNat - 48

/-- `parseInt` on a nonempty run of decimal digits. -/
def digitsToNat (ds : List Char) : Nat :=
  ds.foldl (fun a c => 10 * a + digitVal c) 0

/-- Case-sensitive `String.prototype.startsWith` on char lists. -/
def startsWithList : List Char → List Char → Bool
  | _, [] => true
  | [], _ :: _ => false
  | x :: xs, c :: cs => x == c && startsWithList xs cs

/-- Index of the first occurrence of `pat` in `s` (JS `indexOf`), if any. -/
def indexOfSub (pat : List Char) : List Char → Option Nat
  | [] => if startsWithList [] pat then some 0 else none
  | c :: rest =>
    if startsWithList (c :: rest) pat then some 0
    else (indexOfSub pat rest).map (· + 1)

/-- Index of the first occurrence of a single character, if any. -/
def indexOfChar (ch : Char) : List Char → Option Nat
  | [] => none
  | c :: rest => if c == ch then some 0 else (indexOfChar ch rest).map (· + 1)

/-- JS `String.prototype.trim` (both ends). -/
def trimWs (l : List Char) : List Char :=
  ((l.dropWhile isWsChar).reverse.dropWhile isWsChar).reverse

/-- State machine for `replace(/\s+/g, ' ')`: every maximal whitespace run
becomes a single space.  The flag records whether the previous character was
part of a whitespace run. -/
def collapseAux : Bool → List Char → List Char
  | _, [] => []
  | prevWs, c :: rest =>
    if isWsChar c then
      if prevWs then collapseAux true rest
      else ' ' :: collapseAux true rest
    else c :: collapseAux false rest

/-- `replace(/\s+/g, ' ')` on a char list. -/
def collapseWs (l : List Char) : List Char := collapseAux false l

/-- `.replace(/\s+/g, ' ').trim()`, the cleanup applied in every branch of
`parseNaturalTime`. -/
def collapseAndTrim (l : List Char) : List Char := trimWs (collapseWs l)

/-- `String` versions used at the edges. -/
def lowerStr (s : String) : String := String.mk (s.data.map Char.toLower)

/-- JS `String.prototype.includes`. -/
def strContains (s pat : String) : Bool := (indexOfSub pat.data s.data).isSome

/-- JS `String.prototype.startsWith`. -/
def strStartsWith (s pat : String) : Bool := startsWithList s.data pat.data

/-! ## Embedded regex machinery for `parseNaturalTime`
(src/unnamed/part_001, lines 990-1119).

Each `try...` function attempts to match one of the source's regexes at the
start of the given char list, returning the captures and the remaining
suffix; `scanFirst` then reproduces the engine's scan for the leftmost
position at which the whole pattern matches.  Matching is case-insensitive
(`/i` flag), so literals are compared through `Char.toLower`; the pattern
literals below are lowercase, hence a captured alternative equals the
`toLowerCase()` of the matched slice. -/

/-- Case-insensitive literal: consume `w` (given lowercase) from the head. -/
def eatLitCI : List Char → List Char → Option (List Char)
  | [], s => some s
  | _ :: _, [] => none
  | c :: cs, x :: xs => if x.toLower == c then eatLitCI cs xs else none

/-- `\s+`: at least one whitespace character, maximal munch. -/
def eatWs1 : List Char → Option (List Char)
  | [] => none
  | c :: rest => if isWsChar c then some (rest.dropWhile isWsChar) else none

/-- `\d+`: a maximal nonempty digit run, returning its `parseInt` value. -/
def eatDigits1 (s : List Char) : Option (Nat × List Char) :=
  match s.span Char.isDigit with
  | (ds, rest) => if ds.isEmpty then none else some (digitsToNat ds, rest)

/-- `\d{1,2}` (greedy): one digit, and a second one when present. -/
def eatDigits12 : List Char → Option (Nat × List Char)
  | [] => none
  | c1 :: rest =>
    if c1.isDigit then
      match rest with
      | c2 :: r2 =>
        if c2.isDigit then some (10 * digitVal c1 + digitVal c2, r2)
        else some (digitVal c1, rest)
      | [] => some (digitVal c1, [])
    else none

/-- `\d{2}`: exactly two digits. -/
def twoDigits : List Char → Option (Nat × List Char)
  | c1 :: c2 :: r =>
    if c1.isDigit && c2.isDigit then some (10 * digitVal c1 + digitVal c2, r)
    else none
  | _ => none

/-- `\b` after a word character: the next character must not be a word
character (end of input counts as a boundary). -/
def wordBoundary : List Char → Bool
  | [] => true
  | c :: _ => !isWordChar c

/-- One alternative of `(hour|hr|minute|min|h|m)(?:s?)\b`: the literal, then a
greedy optional `s` (backtracked when the boundary fails after it). -/
def tryUnitAlt (alt : List Char) (s : List Char) : Option (List Char) :=
  match eatLitCI alt s with
  | none => none
  | some r1 =>
    match eatLitCI ['s'] r1 with
    | some r2 =>
      if wordBoundary r2 then some r2
      else if wordBoundary r1 then some r1
      else none
    | none => if wordBoundary r1 then some r1 else none

/-- `(hour|hr|minute|min|h|m)(?:s?)\b`, alternatives in the source's order;
returns the captured alternative and the rest. -/
def tryUnit (s : List Char) : Option (List Char × List Char) :=
  match tryUnitAlt "hour".data s with
  | some r => some ("hour".data, r)
  | none =>
  match tryUnitAlt "hr".data s with
  | some r => some ("hr".data, r)
  | none =>
  match tryUnitAlt "minute".data s with
  | some r => some ("minute".data, r)
  | none =>
  match tryUnitAlt "min".data s with
  | some r => some ("min".data, r)
  | none =>
  match tryUnitAlt "h".data s with
  | some r => some ("h".data, r)
  | none =>
  match tryUnitAlt "m".data s with
  | some r => some ("m".data, r)
  | none => none

/-- Pattern 1, `/in\s+(\d+)\s+(hour|hr|minute|min|h|m)(?:s?)\b/i`, matched at
the start of `s`; captures `(amount, unit)`. -/
def tryIn (s : List Char) : Option ((Nat × List Char) × List Char) :=
  match eatLitCI "in".data s with
  | none => none
  | some r1 =>
  match eatWs1 r1 with
  | none => none
  | some r2 =>
  match eatDigits1 r2 with
  | none => none
  | some (n, r3) =>
  match eatWs1 r3 with
  | none => none
  | some r4 =>
  match tryUnit r4 with
  | none => none
  | some (u, r5) => some ((n, u), r5)

/-- am/pm capture of the clock patterns. -/
inductive AmPm
  | am
  | pm
deriving DecidableEq

/-- Captures of `(\d{1,2})(?::(\d{2}))?\s*(am|pm)?`. -/
structure Clock where
  hour : Nat
  minuteOpt : Option Nat
  ampm : Option AmPm
deriving DecidableEq

/-- `(\d{1,2})(?::(\d{2}))?\s*(am|pm)?` at the start of `s` (this is the whole
of pattern 4 and the tail of patterns 2 and 3).  The optional `:(\d{2})` group
is skipped when the colon is not followed by two digits; `\s*` is greedy; the
optional `(am|pm)` has no boundary, so it also matches inside a longer word. -/
def tryClock (s : List Char) : Option (Clock × List Char) :=
  match eatDigits12 s with
  | none => none
  | some (h, r1) =>
    let (mOpt, r2) :=
      match eatLitCI [':'] r1 with
      | some rc =>
        match twoDigits rc with
        | some (mm, r) => (some mm, r)
        | none => (none, r1)
      | none => (none, r1)
    let r3 := r2.dropWhile isWsChar
    let (ap, r4) :=
      match eatLitCI "am".data r3 with
      | some r => (some AmPm.am, r)
      | none =>
        match eatLitCI "pm".data r3 with
        | some r => (some AmPm.pm, r)
        | none => (none, r3)
    some (⟨h, mOpt, ap⟩, r4)

/-- `(?:at\s+)?`: optionally consume `at` plus whitespace.  (When `at` is
present but not followed by whitespace the group matches empty; the following
digit test then fails on the `a` exactly as the regex engine's backtracking
does.) -/
def optAt (r : List Char) : List Char :=
  match (eatLitCI "at".data r).bind eatWs1 with
  | some r2 => r2
  | none => r

/-- Pattern 2, `/tomorrow\s+(?:at\s+)?(\d{1,2})(?::(\d{2}))?\s*(am|pm)?/i`. -/
def tryTomorrow (s : List Char) : Option (Clock × List Char) := do
  let r1 ← eatLitCI "tomorrow".data s
  let r2 ← eatWs1 r1
  tryClock (optAt r2)

/-- Pattern 3, `/(?:daily|every\s+day)\s+(?:at\s+)?(\d{1,2})(?::(\d{2}))?\s*(am|pm)?/i`
(alternatives in source order: `daily` before `every\s+day`). -/
def tryDaily (s : List Char) : Option (Clock × List Char) := do
  let r1 ←
    match eatLitCI "daily".data s with
    | some r => some r
    | none => (eatLitCI "every".data s).bind eatWs1 |>.bind (eatLitCI "day".data)
  let r2 ← eatWs1 r1
  tryClock (optAt r2)

/-- Scan for the leftmost position at which `try` matches, accumulating the
(reversed) unmatched head.  Returns the text before the match, the captures,
and the text after the match. -/
def scanFirstAux (tr : List Char → Option (α × List Char)) :
    List Char → List Char → Option (List Char × α × List Char)
  | preRev, [] =>
    match tr [] with
    | some (a, rest) => some (preRev.reverse, a, rest)
    | none => none
  | preRev, c :: cs =>
    match tr (c :: cs) with
    | some (a, rest) => some (preRev.reverse, a, rest)
    | none => scanFirstAux tr (c :: preRev) cs

/-- Leftmost match of a pattern in `s`: the JS `match`/`replace` search. -/
def scanFirst (tr : List Char → Option (α × List Char)) (s : List Char) :
    Option (List Char × α × List Char) :=
  scanFirstAux tr [] s

/-! ## `parseNaturalTime` (src/unnamed/part_001, lines 990-1119) -/

/-- The trigger words removed from the start of the message, in the source's
order ('remind me', 'reminder', 'alarm', 'alert me'). -/
def triggerWords : List (List Char) :=
  ["remind me".data, "reminder".data, "alarm".data, "alert me".data]

/-- First trigger word (in list order) contained in the lowercased text,
with the index of its first occurrence and its length. -/
def firstTriggerIdx (lower : List Char) : List (List Char) → Option (Nat × Nat)
  | [] => none
  | w :: ws =>
    match indexOfSub w lower with
    | some i => some (i, w.length)
    | none => firstTriggerIdx lower ws

/-- `message = text.substring(text.toLowerCase().indexOf(word) + word.length).trim()`
for the first trigger word found, else the text unchanged. -/
def applyTrigger (text : List Char) : List Char :=
  match firstTriggerIdx (text.map Char.toLower) triggerWords with
  | some (idx, wlen) => trimWs (text.drop (idx + wlen))
  | none => text

/-- `message.substring(message.indexOf(' ') + 1)`: with no space, `indexOf`
is `-1` and `substring(0)` returns the whole string. -/
def dropThroughFirstSpace (m : List Char) : List Char :=
  match indexOfChar ' ' m with
  | some i => m.drop (i + 1)
  | none => m

/-- Strip a leading `!addreminder`/`/addreminder` (case-sensitive, as in the
source) by dropping through the first space and trimming. -/
def dropCmdWord (m : List Char) : List Char :=
  if startsWithList m "!addreminder".data || startsWithList m "/addreminder".data then
    trimWs (dropThroughFirstSpace m)
  else m

/-- The message-extraction prelude of `parseNaturalTime` (lines 993-1007):
trigger-word removal then command-word removal. -/
def preprocess (text : List Char) : List Char :=
  dropCmdWord (applyTrigger text)

/-- One branch of `replace(/^(to|that|for)\s+/i, '')`: if `m` starts with the
word (case-insensitively) followed by at least one whitespace character, drop
the word and the whole (greedy `\s+`) whitespace run. -/
def tryDropFiller (w : List Char) (m : List Char) : Option (List Char) :=
  match eatLitCI w m with
  | none => none
  | some rest =>
    match rest with
    | c :: _ => if isWsChar c then some (rest.dropWhile isWsChar) else none
    | [] => none

/-- `.replace(/^(to|that|for)\s+/i, '').trim()` (lines 1030 and 1050). -/
def stripLeadFiller (m : List Char) : List Char :=
  match tryDropFiller "to".data m with
  | some r => trimWs r
  | none =>
  match tryDropFiller "that".data m with
  | some r => trimWs r
  | none =>
  match tryDropFiller "for".data m with
  | some r => trimWs r
  | none => trimWs m

/-- Cleanup of the `in`/`tomorrow` branches: collapse whitespace, trim, strip
a leading filler word. -/
def cleanupWithFiller (m : List Char) : List Char :=
  stripLeadFiller (collapseAndTrim m)

/-- Asia/Dhaka is UTC+6 with no DST: a fixed offset of 21600 seconds. -/
def dhakaOffset : Int := 21600

/-- Luxon `dt.set({hour, minute, second: 0, millisecond: 0})` in Asia/Dhaka:
keep the local calendar day of `t`, replace the time of day.  Out-of-range
units make the DateTime Invalid (`none`), which is what Luxon does for e.g.
`hour: 45` (the `\d{1,2}`/`\d{2}` captures can be up to 99). -/
def setInZone (t : Int) (h m : Nat) : Option Int :=
  if h ≤ 23 ∧ m ≤ 59 then
    some (86400 * ((t + dhakaOffset).fdiv 86400) + 3600 * (h : Int) + 60 * (m : Int)
      - dhakaOffset)
  else none

/-- The am/pm adjustment used by patterns 2-4:
`if (ampm === 'pm' && hours < 12) hours += 12; if (ampm === 'am' && hours === 12) hours = 0;`. -/
def adjustHour (h : Nat) (ap : Option AmPm) : Nat :=
  if ap = some AmPm.pm ∧ h < 12 then h + 12
  else if ap = some AmPm.am ∧ h = 12 then 0
  else h

/-- Luxon's representable-range bound in seconds: JS Dates (and hence Luxon
DateTimes) cover timestamps of at most 8.64e15 milliseconds in absolute
value, i.e. 8.64e12 seconds.  Our model works in whole seconds, so the
boundary is exact. -/
def luxonRangeSec : Nat := 8640000000000

/-- Luxon `dt.plus(...)` on a valid DateTime: the shifted instant when it is
representable, otherwise an Invalid DateTime ('Timestamp out of range'). -/
def luxonPlus (t delta : Int) : Option Int :=
  if (t + delta).natAbs ≤ luxonRangeSec then some (t + delta) else none

/-- Due time of the `in N hours/minutes` branch (lines 1017-1027): the unit
capture is lowercased and tested with `startsWith('h')` / `startsWith('m')`;
with neither (impossible for this pattern's alternatives) `dueAt` stays at
`DateTime.now()`.  The captured amount is unbounded (`\d+`), so the `plus`
here — unlike the fixed one-hour/one-day offsets of the other branches — can
leave Luxon's representable range and invalidate the DateTime. -/
def inBranchDueAt (now : Int) (amount : Nat) (unit : List Char) : Option Int :=
  match unit with
  | 'h' :: _ => luxonPlus now (3600 * (amount : Int))
  | 'm' :: _ => luxonPlus now (60 * (amount : Int))
  | _ => some now

/-- Due time of the `tomorrow` branch (lines 1037-1047):
`now.plus({days: 1}).set({hour, minute, second: 0, millisecond: 0})`. -/
def tomorrowDueAt (now : Int) (c : Clock) : Option Int :=
  setInZone (now + 86400) (adjustHour c.hour c.ampm) (c.minuteOpt.getD 0)

/-- Due time of the `daily` branch and of the generic time branch (lines
1057-1072 and 1084-1098, which duplicate the computation): today at the given
time, bumped one day when already past.  An Invalid DateTime compares `false`
and stays Invalid. -/
def dailyDueAt (now : Int) (c : Clock) : Option Int :=
  match setInZone now (adjustHour c.hour c.ampm) (c.minuteOpt.getD 0) with
  | some v => if v < now then some (v + 86400) else some v
  | none => none

/-- The four pattern branches and the default of `parseNaturalTime` (lines
1009-1108), on the preprocessed message: due time paired with the cleaned
message before the final `'Reminder'` defaulting.  A later pattern is only
tried when no earlier one matched (`!dueAt` guards: every branch assigns a
truthy DateTime object, valid or not). -/
def parseCore (m : List Char) (now : Int) : Option Int × List Char :=
  match scanFirst tryIn m with
  | some (pre, (amount, unit), post) =>
    (inBranchDueAt now amount unit, cleanupWithFiller (pre ++ post))
  | none =>
  match scanFirst tryTomorrow m with
  | some (pre, c, post) =>
    (tomorrowDueAt now c, cleanupWithFiller (pre ++ post))
  | none =>
  match scanFirst tryDaily m with
  | some (pre, c, post) =>
    (dailyDueAt now c, "Daily: ".data ++ collapseAndTrim (pre ++ post))
  | none =>
  match scanFirst tryClock m with
  | some (pre, c, post) =>
    (dailyDueAt now c, collapseAndTrim (pre ++ post))
  | none => (some (now + 3600), m)

/-- `if (!parsedMessage) parsedMessage = 'Reminder';` (lines 1111-1113). -/
def finalizeMessage (m : List Char) : String :=
  if m.isEmpty then "Reminder" else String.mk m

/-- Result object of `parseNaturalTime`: `dueAt` is a Luxon DateTime
(`none` = Invalid), `message` the cleaned text. -/
structure ParsedTime where
  dueAt : Option Int
  message : String
deriving DecidableEq

/-- `parseNaturalTime(text)` (lines 990-1119).  `now` is the value of
`DateTime.now()` during the call (seconds since epoch); the function has a
single `return {dueAt, message}` and no null-returning path, hence the
`Option` is always `some`. -/
def parseNaturalTime (text : String) (now : Int) : Option ParsedTime :=
  let r := parseCore (preprocess text.data) now
  some ⟨r.1, finalizeMessage r.2⟩

/-! ## Admin store (src/src/utils/admin.js)

The JSON file `data/admins.json` is embedded as the list it stores
(`stored : List String`); every exported function re-reads it, so each takes
the file contents at call time as an argument.  `fs.writeFile` can throw, so
the promote/demote operations take an explicit `writeOk : Bool` and return
the result object together with the file contents after the call. -/

/-- Hardcoded creator JID (line 10). -/
def CREATOR_JID : String := "8801316655254@s.whatsapp.net"

/-- `isCreator(jid)` (lines 80-82). -/
def isCreator (jid : String) : Bool := jid == CREATOR_JID

/-- `isAdmin(jid)` (lines 90-98): `!jid` is modelled as the empty string
(covering JS `undefined`/`null`/`''`, all falsy). -/
def isAdmin (jid : String) (stored : List String) : Bool :=
  if jid = "" then false
  else if isCreator jid then true
  else stored.contains jid

/-- Result object of promote/demote. -/
structure AdminOpResult where
  success : Bool
  message : String
deriving DecidableEq

/-- `promoteAdmin(promoterJid, targetJid)` (lines 106-158). -/
def promoteAdmin (promoterJid targetJid : String) (stored : List String)
    (writeOk : Bool) : AdminOpResult × List String :=
  if isCreator promoterJid = false then
    (⟨false, "Only the creator can promote admins"⟩, stored)
  else if targetJid = "" ∨ strContains targetJid "@s.whatsapp.net" = false then
    (⟨false, "Invalid JID format"⟩, stored)
  else if isCreator targetJid = true then
    (⟨false, "Creator is already admin"⟩, stored)
  else if stored.contains targetJid = true then
    (⟨false, "User is already an admin"⟩, stored)
  else if writeOk = true then
    (⟨true, "User promoted to admin successfully"⟩, stored ++ [targetJid])
  else
    (⟨false, "Failed to promote user"⟩, stored)

/-- `demoteAdmin(demoterJid, targetJid)` (lines 166-218). -/
def demoteAdmin (demoterJid targetJid : String) (stored : List String)
    (writeOk : Bool) : AdminOpResult × List String :=
  if isCreator demoterJid = false then
    (⟨false, "Only the creator can demote admins"⟩, stored)
  else if targetJid = "" ∨ strContains targetJid "@s.whatsapp.net" = false then
    (⟨false, "Invalid JID format"⟩, stored)
  else if isCreator targetJid = true then
    (⟨false, "Cannot demote the creator"⟩, stored)
  else if stored.contains targetJid = false then
    (⟨false, "User is not an admin"⟩, stored)
  else if writeOk = true then
    (⟨true, "User demoted from admin successfully"⟩,
      stored.filter (fun jid => jid != targetJid))
  else
    (⟨false, "Failed to demote user"⟩, stored)

/-! ## Connection close handling (src/unnamed/part_001, lines 116-144)

The line
  `const statusCode = (lastDisconnect?.error instanceof Boom)?.output?.statusCode;`
is embedded value-by-value: `instanceof` yields a boolean, property access on
a boolean primitive yields `undefined`, and `?.` propagates `undefined`. -/

/-- The JS values this expression can produce: `undefined`, a boolean, a
number, a Boom error object, or a Boom error's `output` object. -/
inductive JsVal
  | undefined
  | jbool (b : Bool)
  | jnum (n : Int)
  | jboomErr (statusCode : Int)
  | jboomOutput (statusCode : Int)
deriving DecidableEq

/-- `v instanceof Boom`. -/
def jsInstanceofBoom : JsVal → Bool
  | .jboomErr _ => true
  | _ => false

/-- Plain property access `v.prop`: only a Boom error has `output`, only its
`output` has `statusCode`; every other access yields `undefined` (booleans
and numbers have neither property). -/
def jsGetProp (v : JsVal) (prop : String) : JsVal :=
  match v with
  | .jboomErr sc => if prop = "output" then .jboomOutput sc else .undefined
  | .jboomOutput sc => if prop = "statusCode" then .jnum sc else .undefined
  | _ => .undefined

/-- Optional chaining `v?.prop`-style: short-circuit on `undefined`. -/
def optChain (v : JsVal) (f : JsVal → JsVal) : JsVal :=
  match v with
  | .undefined => .undefined
  | w => f w

/-- The `lastDisconnect` record of a `connection.update` close event: its
`error` field is an arbitrary JS value (a Boom, some other error, or
anything). -/
structure LastDisconnect where
  error : JsVal

/-- `DisconnectReason.loggedOut` from Baileys. -/
def loggedOutCode : Int := 401

/-- `DisconnectReason.connectionClosed` from Baileys. -/
def connectionClosedCode : Int := 428

/-- Line 118: `(lastDisconnect?.error instanceof Boom)?.output?.statusCode`. -/
def statusCodeOf (lastDisconnect : Option LastDisconnect) : JsVal :=
  let e : JsVal :=
    match lastDisconnect with
    | none => .undefined
    | some ld => ld.error
  let b : JsVal := .jbool (jsInstanceofBoom e)
  let o : JsVal := optChain b (fun v => jsGetProp v "output")
  optChain o (fun v => jsGetProp v "statusCode")

/-- Line 119: `statusCode !== DisconnectReason.loggedOut`. -/
def shouldReconnect (lastDisconnect : Option LastDisconnect) : Bool :=
  !(statusCodeOf lastDisconnect == JsVal.jnum loggedOutCode)

/-- Line 128 guard: `statusCode === DisconnectReason.connectionClosed`
(resets the retry counter when true). -/
def resetsRetryCounter (lastDisconnect : Option LastDisconnect) : Bool :=
  statusCodeOf lastDisconnect == JsVal.jnum connectionClosedCode

/-- `MAX_RETRIES` (line 34). -/
def MAX_RETRIES : Nat := 5

/-- Lines 132-138: on a close event with retry counter `retries`, either a
reconnect attempt is made — returning the new counter value and the delay in
milliseconds (`Math.min(1000 * Math.pow(2, connectionRetries), 30000)`,
computed after the increment) — or the bot gives up (`none`). -/
def closeStep (lastDisconnect : Option LastDisconnect) (retries : Nat) :
    Option (Nat × Nat) :=
  if shouldReconnect lastDisconnect = true ∧ retries < MAX_RETRIES then
    some (retries + 1, min (1000 * 2 ^ (retries + 1)) 30000)
  else none

/-! ## Command dispatcher (src/unnamed/part_001, lines 356-456)

`handleCommand` receives the trimmed text and routes it through a cascade of
`if`/`return`s; each handler it can reach sends at least one `sock.sendMessage`
text reply on every one of its paths (verified by inspection of lines
461-955), while falling through the whole cascade sends nothing.  The routing
itself is pure in the text, so it is embedded as a function into the handler
that gets invoked. -/

/-- Which handler the dispatcher invokes; `noReply` = the cascade fell
through without sending anything. -/
inductive Cmd
  | ping
  | help
  | info
  | timeCmd
  | admins
  | promote
  | demote
  | broadcast
  | addReminder
  | myReminders
  | cancelReminder
  | naturalReminder
  | unknownCmd
  | noReply
deriving DecidableEq

/-- The routing cascade of `handleCommand` (lines 371-440), in source
order. -/
def handleCommandRoute (text : String) : Cmd :=
  if lowerStr text == "!ping" || lowerStr text == "/ping" then Cmd.ping
  else if lowerStr text == "!help" || lowerStr text == "/help" || lowerStr text == "!start" then Cmd.help
  else if lowerStr text == "!info" || lowerStr text == "/info" then Cmd.info
  else if lowerStr text == "!time" || lowerStr text == "/time" then Cmd.timeCmd
  else if lowerStr text == "!admins" || lowerStr text == "/admins" then Cmd.admins
  else if strStartsWith (lowerStr text) "!promote" || strStartsWith (lowerStr text) "/promote" then Cmd.promote
  else if strStartsWith (lowerStr text) "!demote" || strStartsWith (lowerStr text) "/demote" then Cmd.demote
  else if strStartsWith (lowerStr text) "!broadcast" || strStartsWith (lowerStr text) "/broadcast" then Cmd.broadcast
  else if strStartsWith (lowerStr text) "!addreminder" || strStartsWith (lowerStr text) "/addreminder" then Cmd.addReminder
  else if strStartsWith (lowerStr text) "!myreminders" || strStartsWith (lowerStr text) "/myreminders" then Cmd.myReminders
  else if strStartsWith (lowerStr text) "!cancelreminder" || strStartsWith (lowerStr text) "/cancelreminder" then Cmd.cancelReminder
  else if strContains (lowerStr text) "remind me" || strContains (lowerStr text) "reminder" || strContains (lowerStr text) "alarm" then Cmd.naturalReminder
  else if strStartsWith text "!" || strStartsWith text "/" then Cmd.unknownCmd
  else Cmd.noReply

/-- Whether the invoked handler produces an outbound text reply: every real
handler does (each sends a `sock.sendMessage` with a text body on all of its
paths), only falling through the cascade does not. -/
def producesReply : Cmd → Bool
  | Cmd.noReply => false
  | _ => true

/-- The dispatcher's match table, written the way the specification describes
it: a fixed ordered list of predicate/handler pairs (the final pair is the
unknown-command fallback for `!`/`/` texts). -/
def matcherTable : List ((String → Bool) × Cmd) :=
  [ (fun t => lowerStr t == "!ping" || lowerStr t == "/ping", Cmd.ping),
    (fun t => lowerStr t == "!help" || lowerStr t == "/help" || lowerStr t == "!start", Cmd.help),
    (fun t => lowerStr t == "!info" || lowerStr t == "/info", Cmd.info),
    (fun t => lowerStr t == "!time" || lowerStr t == "/time", Cmd.timeCmd),
    (fun t => lowerStr t == "!admins" || lowerStr t == "/admins", Cmd.admins),
    (fun t => strStartsWith (lowerStr t) "!promote" || strStartsWith (lowerStr t) "/promote", Cmd.promote),
    (fun t => strStartsWith (lowerStr t) "!demote" || strStartsWith (lowerStr t) "/demote", Cmd.demote),
    (fun t => strStartsWith (lowerStr t) "!broadcast" || strStartsWith (lowerStr t) "/broadcast", Cmd.broadcast),
    (fun t => strStartsWith (lowerStr t) "!addreminder" || strStartsWith (lowerStr t) "/addreminder", Cmd.addReminder),
    (fun t => strStartsWith (lowerStr t) "!myreminders" || strStartsWith (lowerStr t) "/myreminders", Cmd.myReminders),
    (fun t => strStartsWith (lowerStr t) "!cancelreminder" || strStartsWith (lowerStr t) "/cancelreminder", Cmd.cancelReminder),
    (fun t => strContains (lowerStr t) "remind me" || strContains (lowerStr t) "reminder" || strContains (lowerStr t) "alarm", Cmd.naturalReminder),
    (fun t => strStartsWith t "!" || strStartsWith t "/", Cmd.unknownCmd) ]

/-- First-match routing over a table: the specification-side reading of
"matches against a fixed set of prefixes/keywords and invokes the
corresponding handler". -/
def tableRoute : List ((String → Bool) × Cmd) → String → Cmd
  | [], _ => Cmd.noReply
  | pc :: rest, t => if pc.1 t then pc.2 else tableRoute rest t

/-! ## Reminder command handlers (src/unnamed/part_001, lines 759-955)

Only the shape of the reply matters for the claims: the usage message, the
"Could not understand the time format" error, or a confirmation built from
the parsed reminder. -/

/-- The reply kinds of `handleAddReminder` / `handleNaturalReminder`. -/
inductive RemReply
  | usageHelp
  | couldNotUnderstand
  | reminderSet (message : String) (dueAt : Option Int)
deriving DecidableEq

/-- `handleAddReminder` (lines 759-818): strips the command word, answers
usage on empty text, otherwise branches on `if (!parsedTime)`. -/
def handleAddReminderReply (text : String) (now : Int) : RemReply :=
  let reminderText := trimWs (dropThroughFirstSpace text.data)
  if reminderText.isEmpty then RemReply.usageHelp
  else
    match parseNaturalTime (String.mk reminderText) now with
    | none => RemReply.couldNotUnderstand
    | some p => RemReply.reminderSet p.message p.dueAt

/-- `handleNaturalReminder` (lines 910-955): parses the full text and
branches on `if (!parsedTime)`. -/
def handleNaturalReminderReply (text : String) (now : Int) : RemReply :=
  match parseNaturalTime text now with
  | none => RemReply.couldNotUnderstand
  | some p => RemReply.reminderSet p.message p.dueAt

/-- No pattern of `parseNaturalTime` matches the preprocessed message: the
condition under which the default `plus({hours: 1})` branch runs. -/
def noPatternMatches (m : List Char) : Bool :=
  (scanFirst tryIn m).isNone && (scanFirst tryTomorrow m).isNone
    && (scanFirst tryDaily m).isNone && (scanFirst tryClock m).isNone

/-! ## Event architecture (src/unnamed/part_000 lines 54-56,
src/unnamed/part_001 lines 91-202)

The system's steps are the registered event handlers plus the single
`setInterval` timer of the entry point, whose callback body is empty.
`handlerSendsOutbound` records, per handler, whether its body contains any
`sock.sendMessage` call (by inspection of the handler bodies):
`creds.update` only saves credentials; `connection.update` sends only in its
`open` branch (startup message and admin notifications); `messages.upsert`
replies through the dispatcher; `messages.update` and `groups.update` only
log; `group-participants.update` sends the group welcome message; the
keep-alive tick does nothing. -/

/-- The four states of a `connection.update` event. -/
inductive ConnUpd
  | qrReady
  | connecting
  | closed
  | opened
deriving DecidableEq

/-- Every kind of step the process executes after startup. -/
inductive BotEvent
  | credsUpdate
  | connectionUpdate (k : ConnUpd)
  | messagesUpsert
  | messagesUpdate
  | groupParticipantsUpdate
  | groupsUpdate
  | keepAliveTick
deriving DecidableEq

/-- Whether the handler of this event ever calls `sock.sendMessage`. -/
def handlerSendsOutbound : BotEvent → Bool
  | .connectionUpdate .opened => true
  | .messagesUpsert => true
  | .groupParticipantsUpdate => true
  | _ => false

/-- Whether the event is triggered by the passage of time alone (a timer):
only the 24-hour keep-alive `setInterval` of the entry point is. -/
def timerTriggered : BotEvent → Bool
  | .keepAliveTick => true
  | _ => false

/-! ## Specification-side definition for claim C10 -/

/-- Modelled from the spec: claim C10's predicted cleaned message — "the
input with the matched time phrase removed, runs of whitespace collapsed to
single spaces, and a leading 'to', 'that', or 'for' stripped" — applied to
the raw input text (no trigger-word or command-word stripping). -/
def specC10Clean (text : String) : String :=
  match scanFirst tryIn text.data with
  | some (pre, _, post) => String.mk (cleanupWithFiller (pre ++ post))
  | none => String.mk (cleanupWithFiller text.data)

/-! # Theorems -/

/-! ## Helper lemmas -/

/-- The extracted status code of every close event is `undefined`: the
`instanceof` result is a boolean, and `?.output` on a boolean is
`undefined`. -/
theorem statusCodeOf_undef (ld : Option LastDisconnect) :
    statusCodeOf ld = JsVal.undefined := by
  cases ld <;> rfl

/-- Hence `shouldReconnect` is `true` for every close event. -/
theorem shouldReconnect_true (ld : Option LastDisconnect) :
    shouldReconnect ld = true := by
  cases ld <;> rfl

/-- The final `'Reminder'` defaulting makes the message nonempty. -/
theorem finalizeMessage_ne_empty (m : List Char) : finalizeMessage m ≠ "" := by
  unfold finalizeMessage
  split
  · decide
  · rename_i h
    cases m with
    | nil => simp at h
    | cons c cs => intro hs; simpa using congrArg String.data hs

/-- The cleaned message computed by `parseCore` does not depend on the
clock: in all five branches the message component is built from the text
alone. -/
theorem parseCore_message_const (m : List Char) (t1 t2 : Int) :
    (parseCore m t1).2 = (parseCore m t2).2 := by
  cases h1 : scanFirst tryIn m with
  | some v =>
    obtain ⟨pre, ⟨n, u⟩, post⟩ := v
    simp [parseCore, h1]
  | none =>
    cases h2 : scanFirst tryTomorrow m with
    | some v =>
      obtain ⟨pre, c, post⟩ := v
      simp [parseCore, h1, h2]
    | none =>
      cases h3 : scanFirst tryDaily m with
      | some v =>
        obtain ⟨pre, c, post⟩ := v
        simp [parseCore, h1, h2, h3]
      | none =>
        cases h4 : scanFirst tryClock m with
        | some v =>
          obtain ⟨pre, c, post⟩ := v
          simp [parseCore, h1, h2, h3, h4]
        | none => simp [parseCore, h1, h2, h3, h4]

/-! ## Claim C3 -/

/-- C3: on every connection-close event the extracted status code is
`undefined` — the code optional-chains `.output` off the boolean result of
`lastDisconnect?.error instanceof Boom` — so `shouldReconnect` is `true` for
every disconnect cause (a logged-out Boom error included) and the
`connectionClosed` reset of the retry counter never fires. -/
theorem disconnect_statusCode_undefined :
    (∀ ld, statusCodeOf ld = JsVal.undefined)
    ∧ (∀ ld, shouldReconnect ld = true)
    ∧ (∀ e, shouldReconnect (some ⟨JsVal.jboomErr loggedOutCode⟩) = true ∧ shouldReconnect (some ⟨e⟩) = true)
    ∧ (∀ ld, resetsRetryCounter ld = false) :=
  ⟨statusCodeOf_undef, shouldReconnect_true,
    fun e => ⟨shouldReconnect_true _, shouldReconnect_true _⟩,
    fun ld => by cases ld <;> rfl⟩

/-! ## Claim C6 -/

/-- C6: on the n-th reconnect attempt (n counted from 1) after a
reconnectable disconnect the bot waits `min(1000 * 2^n, 30000)` milliseconds,
and once the counter reaches `MAX_RETRIES = 5` no further attempt is made. -/
theorem reconnect_backoff :
    (∀ ld r r2 d, closeStep ld r = some (r2, d) →
      r2 = r + 1 ∧ d = min (1000 * 2 ^ r2) 30000 ∧ r2 ≤ MAX_RETRIES)
    ∧ (∀ ld r, MAX_RETRIES ≤ r → closeStep ld r = none) := by
  constructor
  · intro ld r r2 d h
    simp only [closeStep] at h
    split at h
    · rename_i hc
      simp only [Option.some.injEq, Prod.mk.injEq] at h
      obtain ⟨h1, h2⟩ := h
      subst h1
      subst h2
      exact ⟨rfl, rfl, hc.2⟩
    · simp at h
  · intro ld r hr
    simp only [closeStep]
    rw [if_neg]
    intro hc
    omega

/-- C6 witness: the first retry after a fresh connection waits
`min(1000 * 2^1, 30000) = 2000` ms, and at a counter of 5 the bot gives
up. -/
theorem reconnect_backoff_witness :
    (1 = 0 + 1 ∧ 2000 = min (1000 * 2 ^ 1) 30000 ∧ 1 ≤ MAX_RETRIES)
    ∧ closeStep none MAX_RETRIES = none :=
  ⟨reconnect_backoff.1 none 0 1 2000 (by decide),
    reconnect_backoff.2 none MAX_RETRIES (le_refl _)⟩

/-! ## Claim C9 -/

/-- C9: no step of the system delivers a reminder when it becomes due — the
only timer is the empty keep-alive tick, whose handler sends nothing, and
every handler that does send an outbound message runs in direct response to
an inbound event (a message upsert, a group-participants update) or to the
connection opening. -/
theorem no_proactive_reminders :
    (∀ e, timerTriggered e = true → handlerSendsOutbound e = false)
    ∧ (∀ e, handlerSendsOutbound e = true →
        (e = BotEvent.messagesUpsert ∨ e = BotEvent.groupParticipantsUpdate
          ∨ e = BotEvent.connectionUpdate ConnUpd.opened)) := by
  constructor
  · intro e h
    cases e <;> simp_all [timerTriggered, handlerSendsOutbound]
  · intro e h
    cases e with
    | connectionUpdate k => cases k <;> simp_all [handlerSendsOutbound]
    | _ => simp_all [handlerSendsOutbound]

/-- C9 witness: the keep-alive tick sends nothing, and the message-upsert
handler (which does send) is an inbound-triggered event. -/
theorem no_proactive_reminders_witness :
    handlerSendsOutbound BotEvent.keepAliveTick = false
    ∧ (BotEvent.messagesUpsert = BotEvent.messagesUpsert
        ∨ BotEvent.messagesUpsert = BotEvent.groupParticipantsUpdate
        ∨ BotEvent.messagesUpsert = BotEvent.connectionUpdate ConnUpd.opened) :=
  ⟨no_proactive_reminders.1 BotEvent.keepAliveTick rfl,
    no_proactive_reminders.2 BotEvent.messagesUpsert rfl⟩

/-! ## Claim C7 -/

/-- C7: the creator identity is a fixed constant no admin-store operation
changes — `isAdmin` accepts the creator whatever the stored list holds,
`promoteAdmin` refuses the creator as target ('Creator is already admin'),
`demoteAdmin` refuses the creator as target ('Cannot demote the creator'),
and both refusals fail and leave the stored list unchanged. -/
theorem creator_fixed :
    (∀ stored, isAdmin CREATOR_JID stored = true)
    ∧ (∀ promoter stored writeOk,
        (promoteAdmin promoter CREATOR_JID stored writeOk).1.success = false
        ∧ (promoteAdmin promoter CREATOR_JID stored writeOk).2 = stored)
    ∧ (∀ demoter stored writeOk,
        (demoteAdmin demoter CREATOR_JID stored writeOk).1.success = false
        ∧ (demoteAdmin demoter CREATOR_JID stored writeOk).2 = stored) := by
  refine ⟨?_, ?_, ?_⟩
  · intro stored
    unfold isAdmin
    rw [if_neg (by decide), if_pos (by decide)]
  · intro promoter stored writeOk
    unfold promoteAdmin
    split_ifs with h1 h2 h3 h4 h5 <;>
      first
        | exact ⟨rfl, rfl⟩
        | exact absurd (by decide : isCreator CREATOR_JID = true) h3
  · intro demoter stored writeOk
    unfold demoteAdmin
    split_ifs with h1 h2 h3 h4 h5 <;>
      first
        | exact ⟨rfl, rfl⟩
        | exact absurd (by decide : isCreator CREATOR_JID = true) h3

/-! ## Claim C5 -/

/-- C5: `promoteAdmin` succeeds exactly when the promoter is the creator, the
target contains `@s.whatsapp.net`, the target is not the creator, the target
is not already stored, and the write succeeds; success appends exactly the
target, every failure leaves the stored list unchanged. -/
theorem promoteAdmin_spec (promoter target : String) (stored : List String)
    (writeOk : Bool) :
    ((promoteAdmin promoter target stored writeOk).1.success = true ↔
      (isCreator promoter = true ∧ strContains target "@s.whatsapp.net" = true
        ∧ isCreator target = false ∧ stored.contains target = false
        ∧ writeOk = true))
    ∧ ((promoteAdmin promoter target stored writeOk).1.success = true →
        (promoteAdmin promoter target stored writeOk).2 = stored ++ [target])
    ∧ ((promoteAdmin promoter target stored writeOk).1.success = false →
        (promoteAdmin promoter target stored writeOk).2 = stored) := by
  unfold promoteAdmin
  split_ifs with h1 h2 h3 h4 h5
  · refine ⟨⟨fun h => by simp at h, ?_⟩, fun h => by simp at h, fun _ => rfl⟩
    rintro ⟨hc, -⟩
    rw [h1] at hc
    exact absurd hc (by simp)
  · refine ⟨⟨fun h => by simp at h, ?_⟩, fun h => by simp at h, fun _ => rfl⟩
    rintro ⟨-, hcon, -⟩
    rcases h2 with h2 | h2
    · subst h2
      rw [(by decide : strContains "" "@s.whatsapp.net" = false)] at hcon
      exact absurd hcon (by simp)
    · rw [h2] at hcon
      exact absurd hcon (by simp)
  · refine ⟨⟨fun h => by simp at h, ?_⟩, fun h => by simp at h, fun _ => rfl⟩
    rintro ⟨-, -, hnc, -⟩
    rw [h3] at hnc
    exact absurd hnc (by simp)
  · refine ⟨⟨fun h => by simp at h, ?_⟩, fun h => by simp at h, fun _ => rfl⟩
    rintro ⟨-, -, -, hmem, -⟩
    rw [h4] at hmem
    exact absurd hmem (by simp)
  · refine ⟨⟨fun _ => ?_, fun _ => rfl⟩, fun _ => rfl, fun h => by simp at h⟩
    push_neg at h2
    refine ⟨by simpa using h1, by simpa using h2.2, by simpa using h3, by simpa using h4, h5⟩
  · refine ⟨⟨fun h => by simp at h, ?_⟩, fun h => by simp at h, fun _ => rfl⟩
    rintro ⟨-, -, -, -, hw⟩
    exact absurd hw h5

/-- C5 witness: promoting a fresh valid JID as the creator with a successful
write succeeds and appends exactly that JID. -/
theorem promoteAdmin_spec_witness :
    (promoteAdmin CREATOR_JID "8801712345678@s.whatsapp.net" [] true).1.success = true
    ∧ (promoteAdmin CREATOR_JID "8801712345678@s.whatsapp.net" [] true).2
        = [] ++ ["8801712345678@s.whatsapp.net"] :=
  ⟨(promoteAdmin_spec CREATOR_JID "8801712345678@s.whatsapp.net" [] true).1.mpr
      ⟨by decide, by decide, by decide, by decide, rfl⟩,
    (promoteAdmin_spec CREATOR_JID "8801712345678@s.whatsapp.net" [] true).2.1
      ((promoteAdmin_spec CREATOR_JID "8801712345678@s.whatsapp.net" [] true).1.mpr
        ⟨by decide, by decide, by decide, by decide, rfl⟩)⟩

/-! ## Claim C8 -/

/-- C8: `isAdmin` re-reads the file on every call, so it is a function of the
stored list at call time: it returns `true` exactly when the JID is nonempty
and is the creator or a stored member (an empty/missing JID gives `false`);
in particular a successful promotion is visible to the very next `isAdmin`
call on the list the file then holds. -/
theorem isAdmin_spec :
    (∀ jid stored, isAdmin jid stored = true ↔
      (jid ≠ "" ∧ (jid = CREATOR_JID ∨ jid ∈ stored)))
    ∧ (∀ target stored writeOk,
        (promoteAdmin CREATOR_JID target stored writeOk).1.success = true →
        isAdmin target (promoteAdmin CREATOR_JID target stored writeOk).2 = true) := by
  constructor
  · intro jid stored
    unfold isAdmin
    split_ifs with h1 h2
    · simp [h1]
    · simp [h1]
      exact Or.inl (by simpa [isCreator] using h2)
    · constructor
      · intro h
        exact ⟨h1, Or.inr (by simpa using h)⟩
      · rintro ⟨-, hc | hm⟩
        · exact absurd (by simp [isCreator, hc]) h2
        · simpa using hm
  · intro target stored writeOk hs
    have hspec := promoteAdmin_spec CREATOR_JID target stored writeOk
    obtain ⟨hc, hcon, hnc, hmem, hw⟩ := hspec.1.mp hs
    rw [hspec.2.1 hs]
    unfold isAdmin
    rw [if_neg, if_neg]
    · simp
    · simp [hnc]
    · intro he
      subst he
      rw [(by decide : strContains "" "@s.whatsapp.net" = false)] at hcon
      exact absurd hcon (by simp)

/-- C8 witness: with the stored list `["a@s.whatsapp.net"]`, `isAdmin`
accepts exactly the stored member and, after a successful promotion, accepts
the newly promoted JID on the written list. -/
theorem isAdmin_spec_witness :
    (isAdmin "a@s.whatsapp.net" ["a@s.whatsapp.net"] = true ↔
      ("a@s.whatsapp.net" ≠ ""
        ∧ ("a@s.whatsapp.net" = CREATOR_JID ∨ "a@s.whatsapp.net" ∈ ["a@s.whatsapp.net"])))
    ∧ isAdmin "8801712345678@s.whatsapp.net"
        (promoteAdmin CREATOR_JID "8801712345678@s.whatsapp.net" [] true).2 = true :=
  ⟨isAdmin_spec.1 "a@s.whatsapp.net" ["a@s.whatsapp.net"],
    isAdmin_spec.2 "8801712345678@s.whatsapp.net" [] true (by decide)⟩

/-! ## Claim C4 -/

/-- First-match routing falls through to `noReply` exactly when no table
predicate accepts the text, provided no table entry maps to `noReply`. -/
theorem tableRoute_eq_noReply_iff (l : List ((String → Bool) × Cmd)) (t : String)
    (hl : ∀ pc ∈ l, pc.2 ≠ Cmd.noReply) :
    tableRoute l t = Cmd.noReply ↔ ∀ pc ∈ l, pc.1 t = false := by
  induction l with
  | nil =>
    constructor
    · intro _ pc hpc
      exact absurd hpc (List.not_mem_nil pc)
    · intro _
      rfl
  | cons pc rest ih =>
    have hne : pc.2 ≠ Cmd.noReply := hl pc (List.mem_cons_self pc rest)
    have hrest := ih (fun q hq => hl q (List.mem_cons_of_mem pc hq))
    simp only [tableRoute]
    cases hp : pc.1 t with
    | true =>
      rw [if_pos rfl]
      constructor
      · intro h
        exact absurd h hne
      · intro h
        have hthis := h pc (List.mem_cons_self pc rest)
        rw [hp] at hthis
        exact absurd hthis (by simp)
    | false =>
      rw [if_neg (by simp), hrest]
      constructor
      · intro h q hq
        rcases List.mem_cons.mp hq with heq | hq2
        · rw [heq]
          exact hp
        · exact h q hq2
      · intro h q hq
        exact h q (List.mem_cons_of_mem pc hq)

/-- No entry of the dispatcher's match table maps to the fall-through. -/
theorem matcherTable_no_noReply : ∀ pc ∈ matcherTable, pc.2 ≠ Cmd.noReply := by
  intro pc hpc
  simp only [matcherTable, List.mem_cons, List.not_mem_nil, or_false] at hpc
  rcases hpc with h | h | h | h | h | h | h | h | h | h | h | h | h <;> subst h <;> simp

/-- C4 (amended): the dispatcher invokes exactly the first matching handler
of its fixed, ordered table; the invoked handler produces an outbound text
reply exactly when the cascade did not fall through, and it falls through
exactly when no prefix/keyword of the table (including the `!`/`/`
unknown-command fallback) matches. -/
theorem dispatcher_first_match :
    (∀ t, handleCommandRoute t = tableRoute matcherTable t)
    ∧ (∀ t, producesReply (handleCommandRoute t) = true ↔ handleCommandRoute t ≠ Cmd.noReply)
    ∧ (∀ t, handleCommandRoute t = Cmd.noReply ↔ ∀ pc ∈ matcherTable, pc.1 t = false) := by
  have hroute : ∀ t, handleCommandRoute t = tableRoute matcherTable t := fun _ => rfl
  refine ⟨hroute, ?_, ?_⟩
  · intro t
    cases h : handleCommandRoute t <;> simp [producesReply]
  · intro t
    rw [hroute t]
    exact tableRoute_eq_noReply_iff matcherTable t matcherTable_no_noReply

/-- C4 counterexample: the inbound text `hello` has nonempty trimmed text,
matches no prefix/keyword of the dispatcher, and produces no outbound reply,
refuting "for every inbound message with non-empty trimmed text ... produces
an outbound text reply". -/
theorem dispatcher_no_reply_cex :
    trimWs "hello".data = "hello".data
    ∧ "hello" ≠ ""
    ∧ handleCommandRoute "hello" = Cmd.noReply
    ∧ producesReply (handleCommandRoute "hello") = false :=
  ⟨by decide, by decide, by decide, by decide⟩

/-- C4 witness: `!ping` routes like the table's first match, and a text with
no match is characterized by all predicates failing. -/
theorem dispatcher_first_match_witness :
    handleCommandRoute "!ping" = tableRoute matcherTable "!ping"
    ∧ (producesReply (handleCommandRoute "!ping") = true ↔ handleCommandRoute "!ping" ≠ Cmd.noReply)
    ∧ (handleCommandRoute "good morning" = Cmd.noReply ↔ ∀ pc ∈ matcherTable, pc.1 "good morning" = false) :=
  ⟨dispatcher_first_match.1 "!ping", dispatcher_first_match.2.1 "!ping",
    dispatcher_first_match.2.2 "good morning"⟩

/-! ## Claim C1 -/

/-- C1 (amended): the cleaned message returned by `parseNaturalTime` is a
pure function of the text — two calls with the same text at different times
return the same message string.  (The due timestamp is not time-independent;
see the counterexample.) -/
theorem parseNaturalTime_message_pure (text : String) (t1 t2 : Int) :
    (parseNaturalTime text t1).map ParsedTime.message
      = (parseNaturalTime text t2).map ParsedTime.message := by
  have h := parseCore_message_const (preprocess text.data) t1 t2
  simp [parseNaturalTime, h]

/-- C1 counterexample: two calls of `parseNaturalTime` on the same text at
different current times return different due timestamps (the default branch
returns `now + 1 hour`), so the result does depend on when the call is
made. -/
theorem parseNaturalTime_time_dependent_cex :
    parseNaturalTime "hello" 0 ≠ parseNaturalTime "hello" 60
    ∧ (parseNaturalTime "hello" 0).map ParsedTime.dueAt = some (some 3600)
    ∧ (parseNaturalTime "hello" 60).map ParsedTime.dueAt = some (some 3660) :=
  ⟨by decide, by decide, by decide⟩

/-! ## Claim C2 -/

/-- C2: `parseNaturalTime` is total and never returns a null result: every
call yields an object whose message is nonempty (`'Reminder'` when the
cleaned message is empty), with `dueAt = now + 1 hour` when no time pattern
matches; consequently the `Could not understand the time format` branches of
`handleAddReminder` and `handleNaturalReminder` are unreachable. -/
theorem parseNaturalTime_total :
    (∀ text now, ∃ p, parseNaturalTime text now = some p ∧ p.message ≠ "")
    ∧ (∀ text now, handleAddReminderReply text now ≠ RemReply.couldNotUnderstand)
    ∧ (∀ text now, handleNaturalReminderReply text now ≠ RemReply.couldNotUnderstand)
    ∧ (∀ text now, noPatternMatches (preprocess text.data) = true →
        parseNaturalTime text now
          = some ⟨some (now + 3600), finalizeMessage (preprocess text.data)⟩)
    ∧ (∀ text now, preprocess text.data = [] →
        parseNaturalTime text now = some ⟨some (now + 3600), "Reminder"⟩) := by
  refine ⟨?_, ?_, ?_, ?_, ?_⟩
  · intro text now
    exact ⟨_, rfl, finalizeMessage_ne_empty _⟩
  · intro text now
    unfold handleAddReminderReply
    by_cases he : (trimWs (dropThroughFirstSpace text.data)).isEmpty = true
    · simp [he]
    · simp [he, parseNaturalTime]
  · intro text now
    unfold handleNaturalReminderReply
    simp [parseNaturalTime]
  · intro text now h
    simp only [noPatternMatches, Bool.and_eq_true, Option.isNone_iff_eq_none] at h
    obtain ⟨⟨⟨h1, h2⟩, h3⟩, h4⟩ := h
    simp [parseNaturalTime, parseCore, h1, h2, h3, h4]
  · intro text now h
    unfold parseNaturalTime
    rw [h]
    rfl

/-- C2 witness: concrete calls exercising the nonempty-message guarantee,
the unreachable error branch, the one-hour default and the `'Reminder'`
default. -/
theorem parseNaturalTime_total_witness :
    (∃ p, parseNaturalTime "hello" 0 = some p ∧ p.message ≠ "")
    ∧ handleAddReminderReply "!addreminder 2h Call mom" 0 ≠ RemReply.couldNotUnderstand
    ∧ parseNaturalTime "hello" 5 = some ⟨some (5 + 3600), finalizeMessage (preprocess "hello".data)⟩
    ∧ parseNaturalTime "remind me" 7 = some ⟨some (7 + 3600), "Reminder"⟩ :=
  ⟨parseNaturalTime_total.1 "hello" 0,
    parseNaturalTime_total.2.1 "!addreminder 2h Call mom" 0,
    parseNaturalTime_total.2.2.2.1 "hello" 5 (by decide),
    parseNaturalTime_total.2.2.2.2 "remind me" 7 (by decide)⟩

/-! ## Claim C10 -/

/-- A matched case-insensitive literal leaves a suffix of the input. -/
theorem eatLitCI_sfx : ∀ (w s r : List Char), eatLitCI w s = some r → r <:+ s := by
  intro w
  induction w with
  | nil =>
    intro s r h
    simp only [eatLitCI, Option.some.injEq] at h
    rw [← h]
  | cons c cs ih =>
    intro s r h
    cases s with
    | nil => simp [eatLitCI] at h
    | cons x xs =>
      simp only [eatLitCI] at h
      split at h
      · exact (ih xs r h).trans (List.suffix_cons x xs)
      · simp at h

/-- `\s+` leaves a suffix of the input. -/
theorem eatWs1_sfx (s r : List Char) (h : eatWs1 s = some r) : r <:+ s := by
  cases s with
  | nil => simp [eatWs1] at h
  | cons c rest =>
    simp only [eatWs1] at h
    split at h
    · simp only [Option.some.injEq] at h
      rw [← h]
      exact (List.dropWhile_suffix isWsChar).trans (List.suffix_cons c rest)
    · simp at h

/-- `\d+` leaves a suffix of the input. -/
theorem eatDigits1_sfx (s : List Char) (n : Nat) (r : List Char)
    (h : eatDigits1 s = some (n, r)) : r <:+ s := by
  simp only [eatDigits1, List.span_eq_take_drop] at h
  split at h
  · simp at h
  · simp only [Option.some.injEq, Prod.mk.injEq] at h
    rw [← h.2]
    exact List.dropWhile_suffix Char.isDigit

/-- The unit alternative matcher leaves a suffix of the input. -/
theorem tryUnitAlt_sfx (alt s r : List Char) (h : tryUnitAlt alt s = some r) :
    r <:+ s := by
  simp only [tryUnitAlt] at h
  split at h
  · simp at h
  · rename_i r1 h1
    split at h
    · rename_i r2 h2
      split at h
      · simp only [Option.some.injEq] at h
        rw [← h]
        exact (eatLitCI_sfx ['s'] r1 r2 h2).trans (eatLitCI_sfx alt s r1 h1)
      · split at h
        · simp only [Option.some.injEq] at h
          rw [← h]
          exact eatLitCI_sfx alt s r1 h1
        · simp at h
    · split at h
      · simp only [Option.some.injEq] at h
        rw [← h]
        exact eatLitCI_sfx alt s r1 h1
      · simp at h

/-- The unit matcher leaves a suffix of the input. -/
theorem tryUnit_sfx (s u r : List Char) (h : tryUnit s = some (u, r)) :
    r <:+ s := by
  simp only [tryUnit] at h
  split at h
  · rename_i r0 h0
    simp only [Option.some.injEq, Prod.mk.injEq] at h
    rw [← h.2]
    exact tryUnitAlt_sfx _ s r0 h0
  · split at h
    · rename_i r0 h0
      simp only [Option.some.injEq, Prod.mk.injEq] at h
      rw [← h.2]
      exact tryUnitAlt_sfx _ s r0 h0
    · split at h
      · rename_i r0 h0
        simp only [Option.some.injEq, Prod.mk.injEq] at h
        rw [← h.2]
        exact tryUnitAlt_sfx _ s r0 h0
      · split at h
        · rename_i r0 h0
          simp only [Option.some.injEq, Prod.mk.injEq] at h
          rw [← h.2]
          exact tryUnitAlt_sfx _ s r0 h0
        · split at h
          · rename_i r0 h0
            simp only [Option.some.injEq, Prod.mk.injEq] at h
            rw [← h.2]
            exact tryUnitAlt_sfx _ s r0 h0
          · split at h
            · rename_i r0 h0
              simp only [Option.some.injEq, Prod.mk.injEq] at h
              rw [← h.2]
              exact tryUnitAlt_sfx _ s r0 h0
            · simp at h

/-- Pattern 1 as a whole leaves a suffix of the input: what it consumed is an
initial segment. -/
theorem tryIn_sfx (s : List Char) (n : Nat) (u r : List Char)
    (h : tryIn s = some ((n, u), r)) : r <:+ s := by
  simp only [tryIn] at h
  split at h
  · simp at h
  · rename_i r1 h1
    split at h
    · simp at h
    · rename_i r2 h2
      split at h
      · simp at h
      · rename_i n3 r3 h3
        split at h
        · simp at h
        · rename_i r4 h4
          split at h
          · simp at h
          · rename_i u5 r5 h5
            simp only [Option.some.injEq, Prod.mk.injEq] at h
            rw [← h.2]
            exact ((((tryUnit_sfx r4 u5 r5 h5).trans
              (eatWs1_sfx r3 r4 h4)).trans
                (eatDigits1_sfx r2 n3 r3 h3)).trans
                  (eatWs1_sfx r1 r2 h2)).trans
                    (eatLitCI_sfx "in".data s r1 h1)

/-- The scan returns a decomposition of its input: the text splits into the
part before the match, the matched slice, and the part after. -/
theorem scanFirstAux_decomp (tr : List Char → Option (α × List Char))
    (hsfx : ∀ s a r, tr s = some (a, r) → r <:+ s) :
    ∀ (s preRev pre : List Char) (a : α) (post : List Char),
      scanFirstAux tr preRev s = some (pre, a, post) →
      ∃ matched, preRev.reverse ++ s = pre ++ (matched ++ post) := by
  intro s
  induction s with
  | nil =>
    intro preRev pre a post h
    unfold scanFirstAux at h
    cases htr : tr [] with
    | some v =>
      obtain ⟨a0, r⟩ := v
      rw [htr] at h
      simp only [Option.some.injEq, Prod.mk.injEq] at h
      obtain ⟨hpre, -, hpost⟩ := h
      have hr : r = [] := List.suffix_nil.mp (hsfx [] a0 r htr)
      refine ⟨[], ?_⟩
      rw [← hpre, ← hpost, hr]
      simp
    | none =>
      rw [htr] at h
      simp at h
  | cons c cs ih =>
    intro preRev pre a post h
    unfold scanFirstAux at h
    cases htr : tr (c :: cs) with
    | some v =>
      obtain ⟨a0, r⟩ := v
      rw [htr] at h
      simp only [Option.some.injEq, Prod.mk.injEq] at h
      obtain ⟨hpre, -, hpost⟩ := h
      obtain ⟨m, hm⟩ := hsfx (c :: cs) a0 r htr
      refine ⟨m, ?_⟩
      rw [← hpre, ← hpost, ← hm]
    | none =>
      rw [htr] at h
      obtain ⟨m, hm⟩ := ih (c :: preRev) pre a post h
      refine ⟨m, ?_⟩
      rw [← hm]
      simp

/-- C10 (amended): when the `in N hours/minutes` pattern matches the
preprocessed message (the input after trigger-word and command-word
stripping), `parseNaturalTime` returns the current time plus N hours
(respectively minutes) whenever that instant lies within Luxon's
representable range (timestamps of at most 8.64e15 ms in absolute value) and
an Invalid DateTime beyond it, together with the preprocessed message with
the matched phrase removed, whitespace runs collapsed, and a leading
`to`/`that`/`for` stripped.  (As stated over the raw input the claim fails;
see the counterexample.) -/
theorem in_pattern_spec (text : String) (now : Int) (pre post unit : List Char)
    (amount : Nat)
    (h : scanFirst tryIn (preprocess text.data) = some (pre, (amount, unit), post)) :
    (∃ matched, preprocess text.data = pre ++ (matched ++ post))
    ∧ parseNaturalTime text now
        = some ⟨inBranchDueAt now amount unit,
            finalizeMessage (stripLeadFiller (collapseAndTrim (pre ++ post)))⟩
    ∧ (∀ u0, unit = 'h' :: u0 →
        (now + 3600 * (amount : Int)).natAbs ≤ luxonRangeSec →
        inBranchDueAt now amount unit = some (now + 3600 * (amount : Int)))
    ∧ (∀ u0, unit = 'm' :: u0 →
        (now + 60 * (amount : Int)).natAbs ≤ luxonRangeSec →
        inBranchDueAt now amount unit = some (now + 60 * (amount : Int)))
    ∧ (∀ u0, unit = 'h' :: u0 →
        luxonRangeSec < (now + 3600 * (amount : Int)).natAbs →
        inBranchDueAt now amount unit = none)
    ∧ (∀ u0, unit = 'm' :: u0 →
        luxonRangeSec < (now + 60 * (amount : Int)).natAbs →
        inBranchDueAt now amount unit = none) := by
  refine ⟨?_, ?_, ?_, ?_, ?_, ?_⟩
  · have hd := scanFirstAux_decomp tryIn
      (fun s a r hh => by
        obtain ⟨n1, u1⟩ := a
        exact tryIn_sfx s n1 u1 r hh)
      (preprocess text.data) [] pre (amount, unit) post h
    simpa using hd
  · simp [parseNaturalTime, parseCore, cleanupWithFiller, h]
  · intro u0 hu hr
    subst hu
    simp only [inBranchDueAt, luxonPlus]
    rw [if_pos hr]
  · intro u0 hu hr
    subst hu
    simp only [inBranchDueAt, luxonPlus]
    rw [if_pos hr]
  · intro u0 hu hr
    subst hu
    simp only [inBranchDueAt, luxonPlus]
    rw [if_neg (not_le.mpr hr)]
  · intro u0 hu hr
    subst hu
    simp only [inBranchDueAt, luxonPlus]
    rw [if_neg (not_le.mpr hr)]

/-- C10 witness: `remind me in 2 hours to call mom` at time 0 parses to due
time 7200 (in range) with cleaned message `call mom` and the preprocessed
message decomposes around the matched phrase, while
`remind me in 9999999999 hours to x` — whose due instant exceeds Luxon's
representable range — parses to an Invalid due time with cleaned message
`x`. -/
theorem in_pattern_spec_witness :
    parseNaturalTime "remind me in 2 hours to call mom" 0
      = some ⟨some 7200, "call mom"⟩
    ∧ inBranchDueAt 0 2 "hour".data = some 7200
    ∧ parseNaturalTime "remind me in 9999999999 hours to x" 0
      = some ⟨none, "x"⟩
    ∧ inBranchDueAt 0 9999999999 "hour".data = none
    ∧ (∃ matched, preprocess ("remind me in 2 hours to call mom").data
        = [] ++ (matched ++ (" to call mom").data)) := by
  have h1 : scanFirst tryIn (preprocess ("remind me in 2 hours to call mom").data)
      = some ([], (2, "hour".data), (" to call mom").data) := by decide
  have h2 : scanFirst tryIn (preprocess ("remind me in 9999999999 hours to x").data)
      = some ([], (9999999999, "hour".data), (" to x").data) := by decide
  have hs1 := in_pattern_spec "remind me in 2 hours to call mom" 0 []
    (" to call mom").data "hour".data 2 h1
  have hs2 := in_pattern_spec "remind me in 9999999999 hours to x" 0 []
    (" to x").data "hour".data 9999999999 h2
  refine ⟨hs1.2.1.trans (by decide),
    (hs1.2.2.1 "our".data (by decide) (by decide)).trans (by decide),
    hs2.2.1.trans (by decide),
    hs2.2.2.2.2.1 "our".data (by decide) (by decide),
    hs1.1⟩

/-- C10 counterexample: for the input `remind me in 2 hours to call mom` the
code's cleaned message is `call mom`, while "the input with the matched time
phrase removed, whitespace collapsed, leading filler stripped" would be
`remind me to call mom` — the code also removes everything through the
trigger word, which the claim does not say. -/
theorem in_pattern_cleaned_cex :
    (parseNaturalTime "remind me in 2 hours to call mom" 0).map ParsedTime.message
      = some "call mom"
    ∧ specC10Clean "remind me in 2 hours to call mom" = "remind me to call mom"
    ∧ ("call mom" : String) ≠ "remind me to call mom" :=
  ⟨by decide, by decide, by decide⟩
